import Mathlib

/-!
Verification of the code-review service's review orchestration core.

The development shallowly embeds the Python sources:

* `src/services/reviewer/patch_parser.py` — the diff line validator
  (`parse_patch_line_numbers`, `filter_comments_by_valid_lines`);
* `src/services/reviewer/graph.py` — result extraction
  (`process_review_result`);
* `src/services/reviewer/service.py` — the orchestrator
  (`review_pull_request`);
* `src/services/github/service.py` / `client.py` — the submission path
  (`submit_review` calling `create_review`).

`review_files_parallel` (the parallel review scheduler) is imported by
`service.py` from `src.services.reviewer.graph` but is not present in the
sources; it and the per-file agentic loop it drives are modelled from the
specification, with their doc comments marked `Modelled from the spec:`.

Machine-level conventions: Python `set[int]` becomes `Finset Nat`; Python
dicts become association lists with last-binding-wins lookup (`pyDictGet`);
Python exceptions become `Except PyExc`; JSON values become the `Json`
inductive, where a Python `bool` (a subclass of `int` that passes
`isinstance(line, int)`) is represented by its integer value when a line
number is read.
-/

set_option autoImplicit false

/-! ### Python value model -/

/-- Python exception classes that the embedded code can raise. -/
inductive PyExc where
  | typeError : PyExc
  | jsonDecodeError : PyExc
  | attributeError : PyExc
  | indexError : PyExc
  | other : String → PyExc
deriving DecidableEq

/-- JSON values as produced by `json.loads`. -/
inductive Json where
  | null : Json
  | bool : Bool → Json
  | num : Int → Json
  | str : String → Json
  | arr : List Json → Json
  | obj : List (String × Json) → Json

/-- Lookup in an association list with Python-dict semantics: when a key is
bound several times, the last binding wins (as in a dict comprehension). -/
def pyDictGet {β : Type} (d : List (String × β)) (k : String) : Option β :=
  d.foldl (fun acc kv => if kv.1 = k then some kv.2 else acc) none

/-- Python truthiness of a JSON value (`if result.get("summary"):`). -/
def jsonTruthy : Json → Bool
  | Json.null => false
  | Json.bool b => b
  | Json.num n => decide (n ≠ 0)
  | Json.str s => decide (s ≠ "")
  | Json.arr xs => !xs.isEmpty
  | Json.obj kvs => !kvs.isEmpty

/-- Python `str()` rendering of a JSON value, used when a summary value is
interpolated into an f-string.  Containers are rendered abbreviated; no
claim inspects the rendering of a container. -/
def pyStr : Json → String
  | Json.null => "None"
  | Json.bool b => if b then "True" else "False"
  | Json.num n => toString n
  | Json.str s => s
  | Json.arr _ => "[...]"
  | Json.obj _ => "\x7b...\x7d"

/-- The integer value of a JSON value that passes `isinstance(x, int)` in
Python: numbers, and booleans (a subclass of `int`, `True == 1`). -/
def jsonToOptInt : Json → Option Int
  | Json.num n => some n
  | Json.bool b => some (if b then 1 else 0)
  | _ => none

/-- Python iteration `for x in v`: lists yield their elements, strings yield
their one-character substrings, dicts yield their keys; other values raise
`TypeError`. -/
def pyIterList : Json → Except PyExc (List Json)
  | Json.arr xs => Except.ok xs
  | Json.str s => Except.ok (s.toList.map (fun ch => Json.str (String.mk [ch])))
  | Json.obj kvs => Except.ok (kvs.map (fun kv => Json.str kv.1))
  | _ => Except.error PyExc.typeError

/-- Python `v.get(k, dflt)` on an arbitrary value: works on dicts, raises
`AttributeError` otherwise. -/
def pyMapGet (j : Json) (k : String) (dflt : Json) : Except PyExc Json :=
  match j with
  | Json.obj kvs => Except.ok ((pyDictGet kvs k).getD dflt)
  | _ => Except.error PyExc.attributeError

/-! ### Data model -/

/-- A changed file as returned by `fetch_pr_files`
(src/services/github/client.py); the `contents_url` field is never read by
the embedded code and is omitted. -/
structure PRFile where
  filename : String
  status : String
  additions : Nat
  deletions : Nat
  patch : String
deriving DecidableEq

/-- A review comment dict `{path, line, message}` as built by
`process_review_result`.  `line` is `some n` exactly when the stored Python
value satisfies `isinstance(line, int)` (including booleans, by their
integer value); any other stored value is represented by `none`, and a
missing `path` key behaves as `""` (the `comment.get("path", "")`
default). -/
structure CommentDict where
  path : String
  line : Option Int
  message : Json

/-- A single-file review result, per the specification's data model. -/
structure FileReviewResult where
  filename : String
  comments : List CommentDict
  summary : String

/-! ### Character-level string primitives

Python string operations are embedded as structural recursion over
`List Char` so that every concrete instance reduces in the kernel. -/

/-- Python `s.split(sep)` for a one-character separator: no collapsing of
adjacent separators, and `""` splits to `[""]`. -/
def pySplitChar (sep : Char) : List Char → List (List Char)
  | [] => [[]]
  | c :: cs =>
    if c = sep then [] :: pySplitChar sep cs
    else
      match pySplitChar sep cs with
      | [] => [[c]]
      | l :: ls => (c :: l) :: ls

/-- Python `s.startswith(p)`: the first argument is the prefix pattern. -/
def listStartsWith : List Char → List Char → Bool
  | [], _ => true
  | _ :: _, [] => false
  | p :: ps, c :: cs => if p = c then listStartsWith ps cs else false

/-- The longest prefix of decimal digits together with the rest
(the greedy `\d*` of a regex). -/
def spanDigits : List Char → List Char × List Char
  | [] => ([], [])
  | c :: cs =>
    if c.isDigit then
      let p := spanDigits cs
      (c :: p.1, p.2)
    else ([], c :: cs)

/-! ### Diff line validator — src/services/reviewer/patch_parser.py -/

/-- Digits of a decimal numeral to a natural number (`int()` on the regex
capture). -/
def digitsToNat (ds : List Char) : Nat :=
  ds.foldl (fun a c => a * 10 + (c.toNat - 48)) 0

/-- Consume an optional `,\d+` group: if the input starts with a comma
followed by at least one digit, drop them; otherwise leave the input
unchanged (the regex group `(?:,\d+)?` matches empty there). -/
def afterOptCommaDigits (cs : List Char) : List Char :=
  match cs with
  | ',' :: rest =>
    let p := spanDigits rest
    if p.1.isEmpty then cs else p.2
  | _ => cs

/-- Prefix match of the hunk-header pattern
`@@ -\d+(?:,\d+)? \+(\d+)(?:,\d+)? @@` used by `parse_patch_line_numbers`,
returning the captured new-start number. -/
def matchHunkHeader (cs : List Char) : Option Nat :=
  match cs with
  | '@' :: '@' :: ' ' :: '-' :: rest =>
    let p1 := spanDigits rest
    if p1.1.isEmpty then none
    else
      match afterOptCommaDigits p1.2 with
      | ' ' :: '+' :: r3 =>
        let p2 := spanDigits r3
        if p2.1.isEmpty then none
        else
          match afterOptCommaDigits p2.2 with
          | ' ' :: '@' :: '@' :: _ => some (digitsToNat p2.1)
          | _ => none
      | _ => none
  | _ => none

/-- The lines of a patch, as Python's `patch.split("\n")` produces them. -/
def patchLines (patch : String) : List (List Char) :=
  pySplitChar '\n' patch.toList

/-- The scanning loop of `parse_patch_line_numbers`
(src/services/reviewer/patch_parser.py lines 26-49), with the current line
counter and accumulated set threaded explicitly. -/
def parsePatchLoop : List (List Char) → Nat → Finset Nat → Finset Nat
  | [], _, acc => acc
  | line :: rest, current_line, acc =>
    match matchHunkHeader line with
    | some ns => parsePatchLoop rest ns acc
    | none =>
      if current_line = 0 then
        parsePatchLoop rest current_line acc
      else if listStartsWith ['+'] line && !(listStartsWith ['+', '+', '+'] line) then
        parsePatchLoop rest (current_line + 1) (insert current_line acc)
      else if listStartsWith ['-'] line && !(listStartsWith ['-', '-', '-'] line) then
        parsePatchLoop rest current_line (insert current_line acc)
      else if !(listStartsWith ['\\'] line) then
        parsePatchLoop rest (current_line + 1) acc
      else
        parsePatchLoop rest current_line acc

/-- `parse_patch_line_numbers` (src/services/reviewer/patch_parser.py):
extract the set of valid line numbers from a unified-diff patch.  An empty
patch (Python falsy) yields the empty set without scanning. -/
def parse_patch_line_numbers (patch : String) : Finset Nat :=
  if patch = "" then (∅ : Finset Nat)
  else parsePatchLoop (patchLines patch) 0 ∅

/-- A line counted as an added line: begins with `+` but not `+++`. -/
def isPlusLine (line : List Char) : Bool :=
  listStartsWith ['+'] line && !(listStartsWith ['+', '+', '+'] line)

/-- A line counted as a removed line: begins with `-` but not `---`. -/
def isMinusLine (line : List Char) : Bool :=
  listStartsWith ['-'] line && !(listStartsWith ['-', '-', '-'] line)

/-- State of the specification's line scan: the current new-file line
number and the set of line numbers found so far. -/
structure ScanState where
  currentLine : Nat
  found : Finset Nat

/-- One step of the scan exactly as the specification words it: a hunk
header sets `currentLine` to its new-start; while `currentLine` is 0 lines
are skipped; a `+` (not `+++`) line adds `currentLine` and increments it; a
`-` (not `---`) line adds `currentLine` without incrementing; a `\` line is
ignored; any other line increments without adding. -/
def scanStep (st : ScanState) (line : List Char) : ScanState :=
  match matchHunkHeader line with
  | some ns => ⟨ns, st.found⟩
  | none =>
    if st.currentLine = 0 then st
    else if isPlusLine line then ⟨st.currentLine + 1, insert st.currentLine st.found⟩
    else if isMinusLine line then ⟨st.currentLine, insert st.currentLine st.found⟩
    else if listStartsWith ['\\'] line then st
    else ⟨st.currentLine + 1, st.found⟩

/-- The valid-line set as described by the specification's scan, as a fold
of `scanStep` over the patch lines (empty or missing patch yields the empty
set). -/
def computeValidLines (patch : String) : Finset Nat :=
  if patch = "" then (∅ : Finset Nat)
  else ((patchLines patch).foldl scanStep ⟨0, ∅⟩).found

/-- The new-start numbers of the hunk headers of a patch, in order. -/
def hunkStarts (patch : String) : List Nat :=
  (patchLines patch).filterMap matchHunkHeader

/-- The new-start number of the first hunk header of a patch, when any. -/
def firstHunkStart (patch : String) : Option Nat :=
  (hunkStarts patch).head?

/-! ### Comment filtering — src/services/reviewer/patch_parser.py -/

/-- The valid-line set consulted for a comment's path:
`valid_lines_by_file.get(path, set())` where `valid_lines_by_file` maps each
filename of `patches` to `parse_patch_line_numbers` of its patch. -/
def valid_lines_for (patches : List (String × String)) (path : String) : Finset Nat :=
  match pyDictGet patches path with
  | some p => parse_patch_line_numbers p
  | none => (∅ : Finset Nat)

/-- The membership test of `filter_comments_by_valid_lines`:
`isinstance(line, int) and line in file_valid_lines`. -/
def is_valid_comment (patches : List (String × String)) (c : CommentDict) : Bool :=
  match c.line with
  | some n => decide (0 ≤ n) && decide (n.toNat ∈ valid_lines_for patches c.path)
  | none => false

/-- `filter_comments_by_valid_lines` (src/services/reviewer/patch_parser.py
lines 54-87): split a comment list into (valid, invalid) preserving input
order, a comment being valid iff its line is an integer contained in the
valid-line set computed for its path. -/
def filter_comments_by_valid_lines (comments : List CommentDict)
    (patches : List (String × String)) : List CommentDict × List CommentDict :=
  comments.partition (is_valid_comment patches)

/-- The specification's wording of comment validity: the `line` field is an
integer that is a member of the valid-line set computed for the comment's
path, the empty set when the path is absent from the mapping. -/
def commentLineIsValidSpec (patches : List (String × String)) (c : CommentDict) : Prop :=
  ∃ n : Int, c.line = some n ∧ 0 ≤ n ∧
    n.toNat ∈ (match pyDictGet patches c.path with
      | some p => parse_patch_line_numbers p
      | none => (∅ : Finset Nat))

/-! ### Result extraction — src/services/reviewer/graph.py -/

/-- Messages of the agent conversation; an `ai` message carries free text
and the names of any requested tool calls (tool-call arguments are never
inspected by the embedded code). -/
inductive Message where
  | system : String → Message
  | human : String → Message
  | ai : String → List String → Message
  | tool : String → Message

/-- Index of the first `\x7b` character, Python `content.find("\x7b")`
(`none` for `-1`). -/
def firstBraceIdx (cs : List Char) : Option Nat :=
  cs.findIdx? (fun c => c = Char.ofNat 123)

/-- Index of the last `\x7d` character, Python `content.rfind("\x7d")`
(`none` for `-1`). -/
def lastBraceIdx (cs : List Char) : Option Nat :=
  (cs.reverse.findIdx? (fun c => c = Char.ofNat 125)).map (fun k => cs.length - 1 - k)

/-- The candidate JSON span `content[json_start:json_end]` of
`process_review_result`: from the first `\x7b` to the last `\x7d`
inclusive, provided `json_start != -1 and json_end > json_start`; `none`
when the code skips parsing. -/
def braceSpan (content : String) : Option String :=
  let cs := content.toList
  match firstBraceIdx cs, lastBraceIdx cs with
  | some i, some j => if i ≤ j then some (String.mk ((cs.drop i).take (j + 1 - i))) else none
  | _, _ => none

/-- The relevant fields of `ReviewState`
(src/services/reviewer/state.py) read by `process_review_result`. -/
structure GraphState where
  files : List PRFile
  current_file_index : Nat
  file_comments : List CommentDict
  file_summaries : List String
  messages : List Message

/-- The dict literal returned by `process_review_result`. -/
structure ReviewUpdate where
  file_comments : List CommentDict
  file_summaries : List String
  current_file_index : Nat
  messages : List Message

/-- The comment-collection loop of `process_review_result`: iterate over
`result.get("comments", [])`, appending
`{path, line: comment.get("line"), message: comment.get("message", "")}`
for each entry; a non-iterable value or a non-dict entry raises. -/
def pyExtractComments (filename : String) (result : List (String × Json)) :
    Except PyExc (List CommentDict) := do
  let commentsVal := (pyDictGet result "comments").getD (Json.arr [])
  let items ← pyIterList commentsVal
  items.mapM (fun item => do
    let lineV ← pyMapGet item "line" Json.null
    let msgV ← pyMapGet item "message" (Json.str "")
    pure ⟨filename, jsonToOptInt lineV, msgV⟩)

/-- `process_review_result` (src/services/reviewer/graph.py lines 135-183):
extract comments and summary from the last message.  `loads` stands for
`json.loads` restricted to the brace-delimited span (which always begins
with `\x7b`, so a successful parse is an object); `none` models
`json.JSONDecodeError`, the only exception the source catches. -/
def process_review_result (loads : String → Option (List (String × Json)))
    (state : GraphState) : Except PyExc ReviewUpdate :=
  match state.messages.getLast? with
  | none => Except.error PyExc.indexError
  | some lastMsg =>
    let content := match lastMsg with
      | Message.ai c _ => c
      | _ => ""
    match state.files.get? state.current_file_index with
    | none => Except.error PyExc.indexError
    | some current_file =>
      match braceSpan content with
      | none =>
        Except.ok ⟨state.file_comments, state.file_summaries,
          state.current_file_index + 1, []⟩
      | some json_str =>
        match loads json_str with
        | none =>
          Except.ok ⟨state.file_comments,
            state.file_summaries ++
              ["**" ++ current_file.filename ++ "**: Review completed (parse error)"],
            state.current_file_index + 1, []⟩
        | some result =>
          match pyExtractComments current_file.filename result with
          | Except.error e => Except.error e
          | Except.ok newComments =>
            let sv := (pyDictGet result "summary").getD Json.null
            let summaries :=
              if jsonTruthy sv then
                state.file_summaries ++
                  ["**" ++ current_file.filename ++ "**: " ++ pyStr sv]
              else state.file_summaries
            Except.ok ⟨state.file_comments ++ newComments, summaries,
              state.current_file_index + 1, []⟩

/-! ### Review submission — src/services/github/service.py and client.py -/

/-- Number of parameters of `create_review(pr, body, comments,
event="COMMENT")` in src/services/github/client.py. -/
def create_review_param_count : Nat := 4

/-- Number of parameters of `create_review` without a default value. -/
def create_review_required_count : Nat := 3

/-- Python positional-call binding: `n` positional arguments bind a
signature iff the required count ≤ `n` ≤ the parameter count; otherwise the
call raises `TypeError` before the body runs. -/
def bindsPositional (nargs params required : Nat) : Bool :=
  required ≤ nargs && nargs ≤ params

/-- A positional call of `create_review`: when the arguments bind, the body
runs and its effect is the external `pr.create_review` outcome
(`postReview`); otherwise `TypeError`. -/
def create_review_call (nargs : Nat) (postReview : Except PyExc Unit) :
    Except PyExc Unit :=
  if bindsPositional nargs create_review_param_count create_review_required_count
  then postReview
  else Except.error PyExc.typeError

/-- Number of positional arguments in the call `create_review(pr, body,
comments, invalid_comments or [], event)` in src/services/github/service.py
line 38. -/
def submit_review_arg_count : Nat := 5

/-- `submit_review` (src/services/github/service.py lines 26-42): calls
`create_review` with five positional arguments inside a try/except that
logs and re-raises, so its result is exactly the call's result.  The review
payload parameters are carried for signature fidelity; the call's binding
fails before they are consumed. -/
def submit_review (body : String) (comments invalid_comments : List CommentDict)
    (postReview : Except PyExc Unit) : Except PyExc Unit :=
  create_review_call submit_review_arg_count postReview

/-! ### Orchestrator — src/services/reviewer/service.py -/

/-- PR metadata fields read by `review_pull_request`. -/
structure PRInfo where
  title : String
  body : String
  head_ref : String
  user_login : String
  html_url : String

/-- The dict returned by `review_pull_request`. -/
structure ReviewOutcome where
  success : Bool
  pr : String
  files_reviewed : Nat
  comments : Nat
  summary : String
deriving DecidableEq

/-- Observable effects of one orchestration run: the returned outcome, the
result of the guarded submission attempt, and the `comments_count` passed
to the chat notification (`none` when the step was not reached). -/
structure RunResult where
  outcome : ReviewOutcome
  submission : Option (Except PyExc Unit)
  notified_count : Option Nat

/-- `max_concurrency=5` at the `review_files_parallel` call site,
src/services/reviewer/service.py line 52. -/
def orchestrator_max_concurrency : Nat := 5

/-- The reviewable files of a run: those with a truthy (non-empty) patch,
capped at `max_files` (`settings.max_files_per_review`). -/
def reviewable_files (files : List PRFile) (max_files : Nat) : List PRFile :=
  let withPatch := files.filter (fun f => !(f.patch = ""))
  if max_files < withPatch.length then withPatch.take max_files else withPatch

/-- `review_pull_request` (src/services/reviewer/service.py lines 13-100).
The scheduler collaborator (`review_files_parallel`) is a parameter taking
the reviewable files, PR title, PR description and the concurrency cap; the
external `pr.create_review` outcome is the parameter `postReview`.  Both
the submission and the notification are wrapped in try/except blocks that
only log, so the returned outcome is built regardless. -/
def review_pull_request (owner repo : String) (pr_number : Nat) (pr : PRInfo)
    (files : List PRFile) (max_files : Nat)
    (scheduler : List PRFile → String → String → Nat → List CommentDict × String)
    (postReview : Except PyExc Unit) : RunResult :=
  let reviewable := reviewable_files files max_files
  if reviewable.isEmpty then
    ⟨⟨true, owner ++ "/" ++ repo ++ "#" ++ toString pr_number, 0, 0,
      "No reviewable changes found."⟩, none, none⟩
  else
    let schedOut := scheduler reviewable pr.title pr.body orchestrator_max_concurrency
    let all_comments := schedOut.1
    let overall_summary := schedOut.2
    let patches := reviewable.map (fun f => (f.filename, f.patch))
    let part := filter_comments_by_valid_lines all_comments patches
    let sub := submit_review overall_summary part.1 part.2 postReview
    ⟨⟨true, owner ++ "/" ++ repo ++ "#" ++ toString pr_number,
      reviewable.length, all_comments.length, overall_summary⟩,
      some sub, some all_comments.length⟩

/-! ### Parallel review scheduler — modelled from the spec

`review_files_parallel` is imported by src/services/reviewer/service.py
from `src.services.reviewer.graph` but is not defined in the sources; the
definitions below model it from the specification (sections 4.4 and 5). -/

/-- Status of one file's review task under the scheduler. -/
inductive TaskStatus where
  | pending : TaskStatus
  | running : TaskStatus
  | done : Bool → TaskStatus
deriving DecidableEq

/-- Modelled from the spec: the scheduler's state — one task per file, all
submitted at once, plus the permit count of the counting admission gate. -/
structure SchedState where
  tasks : List TaskStatus
  permits : Nat
deriving DecidableEq

/-- Number of tasks currently in-flight. -/
def runningCount (ts : List TaskStatus) : Nat :=
  ts.countP (fun t => t = TaskStatus.running)

/-- Modelled from the spec: the initial scheduler state for
`review_files_parallel` — every file pending, the gate holding
`maxConcurrency` permits. -/
def schedInit (maxConcurrency numFiles : Nat) : SchedState :=
  ⟨List.replicate numFiles TaskStatus.pending, maxConcurrency⟩

/-- Modelled from the spec: the scheduler's transitions.  A pending task
may start only by acquiring a permit; a running task finishing — whether by
success or by an uncaught exception — releases its permit unconditionally. -/
inductive SchedStep : SchedState → SchedState → Prop where
  | acquire (s : SchedState) (i : Nat) :
      s.tasks.get? i = some TaskStatus.pending → 0 < s.permits →
      SchedStep s ⟨s.tasks.set i TaskStatus.running, s.permits - 1⟩
  | release (s : SchedState) (i : Nat) (ok : Bool) :
      s.tasks.get? i = some TaskStatus.running →
      SchedStep s ⟨s.tasks.set i (TaskStatus.done ok), s.permits + 1⟩

/-- States reachable from an initial scheduler state. -/
inductive SchedReachable (init : SchedState) : SchedState → Prop where
  | refl : SchedReachable init init
  | tail {s s' : SchedState} :
      SchedReachable init s → SchedStep s s' → SchedReachable init s'

/-- The admission-gate invariant: in-flight tasks plus available permits
equal the gate's capacity. -/
def schedInvariant (cap : Nat) (s : SchedState) : Prop :=
  runningCount s.tasks + s.permits = cap

/-- Modelled from the spec: the per-file summary lines aggregated by
`review_files_parallel` from successful results only, in file-submission
order (`"**filename**: summary"`). -/
def successSummaries (outcome : PRFile → Except PyExc FileReviewResult)
    (files : List PRFile) : List String :=
  files.filterMap (fun f =>
    match outcome f with
    | Except.ok r => some ("**" ++ f.filename ++ "**: " ++ r.summary)
    | Except.error _ => none)

/-- Comments contributed by one per-file task: its result's comments on
success, nothing when the task failed. -/
def okComments (e : Except PyExc FileReviewResult) : List CommentDict :=
  match e with
  | Except.ok r => r.comments
  | Except.error _ => []

/-- True exactly for a successful per-file outcome. -/
def isOkOutcome (e : Except PyExc FileReviewResult) : Bool :=
  match e with
  | Except.ok _ => true
  | Except.error _ => false

/-- Modelled from the spec: the join/aggregation of `review_files_parallel`
(src.services.reviewer.graph, absent from the sources).  Each file's task
resolves to `outcome f` (an uncaught exception for a failed task); all
tasks run to completion, failures are excluded from aggregation, comments
are concatenated in file-submission order, and an empty summary sequence
short-circuits to the fixed result without invoking the summarization
model (`summarize`). -/
def review_files_parallel (outcome : PRFile → Except PyExc FileReviewResult)
    (summarize : List String → String) (files : List PRFile) :
    List CommentDict × String :=
  let comments := (files.map (fun f => okComments (outcome f))).flatten
  let summaries := successSummaries outcome files
  if summaries.isEmpty then (comments, "No files were reviewed.")
  else (comments, summarize summaries)

/-! ### Single-file agentic loop — modelled from the spec

The per-file reviewer driven by `review_files_parallel` is likewise absent
from the sources; modelled from specification section 4.3. -/

/-- The iteration cap of the single-file agentic loop (spec: cap = 5). -/
def review_iteration_cap : Nat := 5

/-- The free-text content carried by a message. -/
def contentOf : Message → String
  | Message.system c => c
  | Message.human c => c
  | Message.ai c _ => c
  | Message.tool c => c

/-- True when an AI message requests at least one tool call. -/
def hasToolCalls : Message → Bool
  | Message.ai _ (_ :: _) => true
  | _ => false

/-- Modelled from the spec: the initial prompt — a system prompt plus a
user prompt embedding the PR title, description and the file's diff. -/
def initMessages (f : PRFile) (title desc : String) : List Message :=
  [Message.system "code review instructions",
   Message.human ("Review this file from PR: " ++ title ++ "\n" ++ desc ++
     "\nFile: " ++ f.filename ++ "\nDiff:\n" ++ f.patch)]

/-- Modelled from the spec: the bounded tool-call loop.  `fuel` counts the
invocations allowed after the current one; a response with tool calls
consumes an iteration, dispatches every requested tool through `execTool`
and re-invokes; a response without tool calls is final regardless of the
remaining fuel; at fuel 0 the response is final even if it requests tools.
Returns the number of model invocations performed and the final response. -/
def agentLoop (invoke : List Message → Message) (execTool : String → String) :
    Nat → List Message → Nat × Message
  | 0, hist => (1, invoke hist)
  | Nat.succ n, hist =>
    let r := invoke hist
    match r with
    | Message.ai _ (t :: ts) =>
      let toolMsgs := (t :: ts).map (fun name => Message.tool (execTool name))
      let rest := agentLoop invoke execTool n ((hist ++ [r]) ++ toolMsgs)
      (rest.1 + 1, rest.2)
    | _ => (1, r)

/-- Modelled from the spec: result extraction of the single-file reviewer —
locate the span from the first `\x7b` to the last `\x7d` and parse it;
malformed or absent structured JSON degrades to zero comments and the fixed
parse-error marker, never raising. -/
def specExtract (loads : String → Option (List (String × Json)))
    (filename content : String) : FileReviewResult :=
  match braceSpan content with
  | some js =>
    match loads js with
    | some result =>
      ⟨filename,
        (match pyDictGet result "comments" with
          | some (Json.arr xs) =>
            xs.map (fun item =>
              match item with
              | Json.obj kvs =>
                ⟨filename, (pyDictGet kvs "line").bind jsonToOptInt,
                  (pyDictGet kvs "message").getD (Json.str "")⟩
              | _ => ⟨filename, none, Json.str ""⟩)
          | _ => []),
        (match pyDictGet result "summary" with
          | some (Json.str s) => s
          | _ => "")⟩
    | none => ⟨filename, [], "Review completed (parse error)"⟩
  | none => ⟨filename, [], "Review completed (parse error)"⟩

/-- Modelled from the spec: `reviewFile` — run the bounded agentic loop
from the initial prompt and run the final response through extraction. -/
def reviewFile (loads : String → Option (List (String × Json)))
    (invoke : List Message → Message) (execTool : String → String)
    (f : PRFile) (title desc : String) : FileReviewResult :=
  let run := agentLoop invoke execTool (review_iteration_cap - 1)
    (initMessages f title desc)
  specExtract loads f.filename (contentOf run.2)

/-! ### Concrete instances used by witnesses and counterexamples -/

/-- A one-hunk changed file whose patch yields the valid-line set `{1}`. -/
def fileA : PRFile := ⟨"a.py", "modified", 1, 0, "@@ -1 +1 @@\n+x"⟩

/-- A single-file change list. -/
def files1 : List PRFile := [fileA]

/-- Concrete PR metadata. -/
def pr0 : PRInfo := ⟨"Add feature", "Some description", "main", "author1",
  "http://example/pr/1"⟩

/-- A scheduler stub producing no comments. -/
def sched0 : List PRFile → String → String → Nat → List CommentDict × String :=
  fun _ _ _ _ => ([], "looks good")

/-- A scheduler stub producing one comment on a diff line and one comment
off the diff. -/
def sched2 : List PRFile → String → String → Nat → List CommentDict × String :=
  fun _ _ _ _ =>
    ([⟨"a.py", some 1, Json.str "good catch"⟩,
      ⟨"a.py", some 99, Json.str "off the diff"⟩], "mixed findings")

/-- A `json.loads` stub for which every parse attempt fails. -/
def loads0 : String → Option (List (String × Json)) := fun _ => none

/-- A graph state whose last message contains no brace-delimited span. -/
def stateNoJson : GraphState :=
  ⟨files1, 0, [], [],
    [Message.ai "the model replied with plain prose and no structured output" []]⟩

/-- A graph state whose last message contains a brace-delimited span that
does not parse. -/
def stateBadJson : GraphState :=
  ⟨files1, 0, [], [],
    [Message.ai "prefix \x7bnot valid json\x7d suffix" []]⟩

/-- Seven changed files, as in the specification's scheduler example. -/
def files7 : List PRFile :=
  [⟨"a.py", "modified", 1, 0, "@@ -1 +1 @@\n+a"⟩,
   ⟨"b.py", "modified", 1, 0, "@@ -1 +1 @@\n+b"⟩,
   ⟨"c.py", "modified", 1, 0, "@@ -1 +1 @@\n+c"⟩,
   ⟨"d.py", "modified", 1, 0, "@@ -1 +1 @@\n+d"⟩,
   ⟨"e.py", "modified", 1, 0, "@@ -1 +1 @@\n+e"⟩,
   ⟨"f.py", "modified", 1, 0, "@@ -1 +1 @@\n+f"⟩,
   ⟨"g.py", "modified", 1, 0, "@@ -1 +1 @@\n+g"⟩]

/-- A per-file outcome where exactly the tasks for `c.py` and `f.py` raise
and the other five succeed. -/
def outcome7 : PRFile → Except PyExc FileReviewResult := fun f =>
  if f.filename = "c.py" ∨ f.filename = "f.py" then
    Except.error (PyExc.other "task raised")
  else
    Except.ok ⟨f.filename, [⟨f.filename, some 1, Json.str "note"⟩], "fine"⟩

/-- A summarization stub. -/
def summarize0 : List String → String := fun _ => "overall assessment"

/-- A model stub that requests a tool call on every response. -/
def invoke1 : List Message → Message :=
  fun _ => Message.ai "need more context" ["get_file"]

/-- A tool-execution stub. -/
def exec1 : String → String := fun _ => "file contents"

/-! ### Lemmas about the diff line validator -/

/-- The source's scanning loop agrees with the specification's fold at
every intermediate state. -/
theorem parsePatchLoop_eq_fold (lines : List (List Char)) :
    ∀ cur acc, parsePatchLoop lines cur acc =
      (lines.foldl scanStep ⟨cur, acc⟩).found := by
  induction lines with
  | nil => intro cur acc; rfl
  | cons l rest ih =>
    intro cur acc
    simp only [parsePatchLoop, List.foldl, scanStep, isPlusLine, isMinusLine]
    cases h : matchHunkHeader l with
    | some ns => simp only [ih]
    | none =>
      by_cases h0 : cur = 0
      · simp [h0, ih]
      · by_cases hp : (listStartsWith ['+'] l && !listStartsWith ['+', '+', '+'] l) = true
        · simp [h0, hp, ih]
        · by_cases hm : (listStartsWith ['-'] l && !listStartsWith ['-', '-', '-'] l) = true
          · simp [h0, hp, hm, ih]
          · by_cases hb : listStartsWith ['\\'] l = true
            · simp [h0, hp, hm, hb, ih]
            · simp [h0, hp, hm, hb, ih]

/-- Every member of the loop's output was present in the accumulator, or is
at least the current line of a live position, or is at least the new-start
of some hunk header among the remaining lines. -/
theorem mem_parsePatchLoop (lines : List (List Char)) :
    ∀ cur acc (n : Nat), n ∈ parsePatchLoop lines cur acc →
      n ∈ acc ∨ (cur ≠ 0 ∧ cur ≤ n) ∨
        ∃ s ∈ lines.filterMap matchHunkHeader, s ≤ n := by
  induction lines with
  | nil => intro cur acc n hn; exact Or.inl hn
  | cons l rest ih =>
    intro cur acc n hn
    simp only [parsePatchLoop] at hn
    cases h : matchHunkHeader l with
    | some ns =>
      rw [h] at hn
      rcases ih ns acc n hn with h1 | h2 | h3
      · exact Or.inl h1
      · refine Or.inr (Or.inr ⟨ns, ?_, h2.2⟩)
        simp [List.filterMap_cons, h]
      · rcases h3 with ⟨s, hs, hsn⟩
        refine Or.inr (Or.inr ⟨s, ?_, hsn⟩)
        simp [List.filterMap_cons, h, hs]
    | none =>
      rw [h] at hn
      have lift : ∀ m : Nat,
          (∃ s ∈ rest.filterMap matchHunkHeader, s ≤ m) →
          ∃ s ∈ (l :: rest).filterMap matchHunkHeader, s ≤ m := by
        intro m hm
        rcases hm with ⟨s, hs, hsm⟩
        exact ⟨s, by simp [List.filterMap_cons, h, hs], hsm⟩
      by_cases h0 : cur = 0
      · rw [if_pos h0] at hn
        rcases ih cur acc n hn with h1 | h2 | h3
        · exact Or.inl h1
        · exact absurd h0 h2.1
        · exact Or.inr (Or.inr (lift n h3))
      · rw [if_neg h0] at hn
        by_cases hp : (listStartsWith ['+'] l && !listStartsWith ['+', '+', '+'] l) = true
        · rw [if_pos hp] at hn
          rcases ih (cur + 1) (insert cur acc) n hn with h1 | h2 | h3
          · rcases Finset.mem_insert.mp h1 with rfl | hmem
            · exact Or.inr (Or.inl ⟨h0, le_refl n⟩)
            · exact Or.inl hmem
          · exact Or.inr (Or.inl ⟨h0, Nat.le_of_succ_le h2.2⟩)
          · exact Or.inr (Or.inr (lift n h3))
        · rw [if_neg hp] at hn
          by_cases hm : (listStartsWith ['-'] l && !listStartsWith ['-', '-', '-'] l) = true
          · rw [if_pos hm] at hn
            rcases ih cur (insert cur acc) n hn with h1 | h2 | h3
            · rcases Finset.mem_insert.mp h1 with rfl | hmem
              · exact Or.inr (Or.inl ⟨h0, le_refl n⟩)
              · exact Or.inl hmem
            · exact Or.inr (Or.inl h2)
            · exact Or.inr (Or.inr (lift n h3))
          · rw [if_neg hm] at hn
            by_cases hb : (!listStartsWith ['\\'] l) = true
            · rw [if_pos hb] at hn
              rcases ih (cur + 1) acc n hn with h1 | h2 | h3
              · exact Or.inl h1
              · exact Or.inr (Or.inl ⟨h0, Nat.le_of_succ_le h2.2⟩)
              · exact Or.inr (Or.inr (lift n h3))
            · rw [if_neg hb] at hn
              rcases ih cur acc n hn with h1 | h2 | h3
              · exact Or.inl h1
              · exact Or.inr (Or.inl h2)
              · exact Or.inr (Or.inr (lift n h3))

/-- When no line of the patch is an added or a removed line, the loop never
adds anything to the accumulator. -/
theorem parsePatchLoop_no_modified (lines : List (List Char)) :
    ∀ cur acc, (∀ l ∈ lines, isPlusLine l = false ∧ isMinusLine l = false) →
      parsePatchLoop lines cur acc = acc := by
  induction lines with
  | nil => intro cur acc _; rfl
  | cons l rest ih =>
    intro cur acc hno
    have hl := hno l (List.mem_cons_self l rest)
    have hrest : ∀ l' ∈ rest, isPlusLine l' = false ∧ isMinusLine l' = false :=
      fun l' hl' => hno l' (List.mem_cons_of_mem l hl')
    have hp : (listStartsWith ['+'] l && !listStartsWith ['+', '+', '+'] l) = false := hl.1
    have hm : (listStartsWith ['-'] l && !listStartsWith ['-', '-', '-'] l) = false := hl.2
    simp only [parsePatchLoop]
    cases h : matchHunkHeader l with
    | some ns => exact ih ns acc hrest
    | none =>
      by_cases h0 : cur = 0
      · rw [if_pos h0]; exact ih cur acc hrest
      · rw [if_neg h0, hp, if_neg (by simp), hm, if_neg (by simp)]
        by_cases hb : (!listStartsWith ['\\'] l) = true
        · rw [if_pos hb]; exact ih (cur + 1) acc hrest
        · rw [if_neg hb]; exact ih cur acc hrest

/-! ### Lemmas about lists -/

/-- A filtered list and its complement together account for every element. -/
theorem length_filter_add_length_filter_not {α : Type} (l : List α) (p : α → Bool) :
    (l.filter p).length + (l.filter (fun a => !(p a))).length = l.length := by
  induction l with
  | nil => rfl
  | cons a l ih =>
    rw [List.filter_cons, List.filter_cons]
    cases hpa : p a <;> simp <;> omega

/-- Counting after updating one known position. -/
theorem countP_set_of_get {α : Type} (l : List α) :
    ∀ (i : Nat) (a v : α) (p : α → Bool), l.get? i = some a →
      (l.set i v).countP p + (if p a then 1 else 0) =
        l.countP p + (if p v then 1 else 0) := by
  induction l with
  | nil => intro i a v p h; simp at h
  | cons x xs ih =>
    intro i a v p h
    cases i with
    | zero =>
      have hax : a = x := by simpa using h.symm
      subst hax
      simp only [List.set, List.countP_cons]
      omega
    | succ j =>
      have hj : xs.get? j = some a := by simpa using h
      have := ih j a v p hj
      simp only [List.set, List.countP_cons]
      omega

/-! ### Lemmas about the comment filter -/

/-- The source's membership test agrees with the specification's wording of
comment validity. -/
theorem is_valid_comment_iff (patches : List (String × String)) (c : CommentDict) :
    is_valid_comment patches c = true ↔ commentLineIsValidSpec patches c := by
  unfold is_valid_comment commentLineIsValidSpec valid_lines_for
  cases hl : c.line with
  | none => simp
  | some n =>
    simp only [Bool.and_eq_true, decide_eq_true_eq]
    constructor
    · intro h; exact ⟨n, rfl, h.1, h.2⟩
    · intro h
      rcases h with ⟨m, hm, h0, hmem⟩
      cases hm
      exact ⟨h0, hmem⟩

/-! ### Lemmas about the modelled scheduler -/

/-- Each scheduler transition preserves the admission-gate invariant. -/
theorem schedStep_preserves {cap : Nat} {s s' : SchedState}
    (hstep : SchedStep s s') (hinv : schedInvariant cap s) :
    schedInvariant cap s' := by
  unfold schedInvariant runningCount at *
  cases hstep with
  | acquire i hget hpos =>
    have hcount := countP_set_of_get s.tasks i TaskStatus.pending TaskStatus.running
      (fun t => decide (t = TaskStatus.running)) hget
    rw [if_neg (by decide), if_pos (by decide)] at hcount
    dsimp only
    omega
  | release i ok hget =>
    have hcount := countP_set_of_get s.tasks i TaskStatus.running (TaskStatus.done ok)
      (fun t => decide (t = TaskStatus.running)) hget
    rw [if_pos (by decide), if_neg (by simp)] at hcount
    dsimp only
    omega

/-- Every reachable scheduler state satisfies the admission-gate
invariant. -/
theorem schedReachable_invariant {cap numFiles : Nat} {s : SchedState}
    (hreach : SchedReachable (schedInit cap numFiles) s) :
    schedInvariant cap s := by
  induction hreach with
  | refl =>
    unfold schedInvariant schedInit runningCount
    have hzero : (List.replicate numFiles TaskStatus.pending).countP
        (fun t => t = TaskStatus.running) = 0 := by
      apply List.countP_eq_zero.mpr
      intro t ht
      have := List.eq_of_mem_replicate ht
      subst this
      simp
    simp [hzero]
  | tail _ hstep ih => exact schedStep_preserves hstep ih

/-! ### Lemmas about the modelled aggregation -/

/-- Unfolding `okComments` on a success. -/
theorem okComments_ok (r : FileReviewResult) :
    okComments (Except.ok r) = r.comments := rfl

/-- Unfolding `okComments` on a failure. -/
theorem okComments_error (e : PyExc) :
    okComments (Except.error e) = [] := rfl

/-- Unfolding `isOkOutcome` on a success. -/
theorem isOkOutcome_ok (r : FileReviewResult) :
    isOkOutcome (Except.ok r) = true := rfl

/-- Unfolding `isOkOutcome` on a failure. -/
theorem isOkOutcome_error (e : PyExc) :
    isOkOutcome (Except.error e) = false := rfl

/-- Concatenating per-task comment lists equals concatenating over the
successful tasks only, since failed tasks contribute nothing. -/
theorem flatten_okComments (outcome : PRFile → Except PyExc FileReviewResult)
    (files : List PRFile) :
    (files.map (fun f => okComments (outcome f))).flatten =
      ((files.filter (fun f => isOkOutcome (outcome f))).map
        (fun f => okComments (outcome f))).flatten := by
  induction files with
  | nil => rfl
  | cons f fs ih =>
    simp only [List.map_cons, List.filter_cons]
    cases hf : outcome f with
    | ok r =>
      simp only [hf, okComments_ok, isOkOutcome_ok, if_pos, List.map_cons,
        List.flatten_cons, ih]
    | error e =>
      simp only [hf, okComments_error, isOkOutcome_error, List.flatten_cons, ih]
      simp

/-- One summary line is aggregated per successful task. -/
theorem successSummaries_length (outcome : PRFile → Except PyExc FileReviewResult)
    (files : List PRFile) :
    (successSummaries outcome files).length =
      (files.filter (fun f => isOkOutcome (outcome f))).length := by
  induction files with
  | nil => rfl
  | cons f fs ih =>
    unfold successSummaries at *
    simp only [List.filterMap_cons, List.filter_cons]
    cases hf : outcome f with
    | ok r => simp [hf, isOkOutcome_ok, ih]
    | error e => simp [hf, isOkOutcome_error, ih]

/-! ### Lemmas about the modelled agentic loop -/

/-- The loop performs at most one more invocation than it has fuel. -/
theorem agentLoop_invocations_le (invoke : List Message → Message)
    (execTool : String → String) :
    ∀ (fuel : Nat) (hist : List Message),
      (agentLoop invoke execTool fuel hist).1 ≤ fuel + 1 := by
  intro fuel
  induction fuel with
  | zero => intro hist; simp [agentLoop]
  | succ n ih =>
    intro hist
    cases hr : invoke hist with
    | ai c tcs =>
      cases tcs with
      | nil => simp [agentLoop, hr]
      | cons t ts =>
        have := ih ((hist ++ [Message.ai c (t :: ts)]) ++
          (t :: ts).map (fun name => Message.tool (execTool name)))
        simp only [agentLoop, hr]
        omega
    | system c => simp [agentLoop, hr]
    | human c => simp [agentLoop, hr]
    | tool c => simp [agentLoop, hr]

/-- When the model requests tool calls on every response, the loop spends
all its fuel and performs exactly fuel + 1 invocations. -/
theorem agentLoop_invocations_eq (invoke : List Message → Message)
    (execTool : String → String)
    (htool : ∀ h, hasToolCalls (invoke h) = true) :
    ∀ (fuel : Nat) (hist : List Message),
      (agentLoop invoke execTool fuel hist).1 = fuel + 1 := by
  intro fuel
  induction fuel with
  | zero => intro hist; simp [agentLoop]
  | succ n ih =>
    intro hist
    have ht := htool hist
    cases hr : invoke hist with
    | ai c tcs =>
      cases tcs with
      | nil => rw [hr] at ht; simp [hasToolCalls] at ht
      | cons t ts =>
        have := ih ((hist ++ [Message.ai c (t :: ts)]) ++
          (t :: ts).map (fun name => Message.tool (execTool name)))
        simp only [agentLoop, hr]
        omega
    | system c => rw [hr] at ht; simp [hasToolCalls] at ht
    | human c => rw [hr] at ht; simp [hasToolCalls] at ht
    | tool c => rw [hr] at ht; simp [hasToolCalls] at ht

/-! ### Claim theorems -/

/-- C4: `parse_patch_line_numbers` computes, for every patch string,
exactly the set given by the specification's scan (`computeValidLines`);
an empty or missing patch yields the empty set; in particular the patch
`"@@ -1,2 +1,3 @@\n context\n+added line\n another\n"` yields exactly
`{2}`. -/
theorem claim_C4_parse_patch_matches_spec_scan :
    (∀ patch : String, parse_patch_line_numbers patch = computeValidLines patch) ∧
    parse_patch_line_numbers "" = (∅ : Finset Nat) ∧
    parse_patch_line_numbers "@@ -1,2 +1,3 @@\n context\n+added line\n another\n" =
      ({2} : Finset Nat) := by
  refine ⟨?_, by decide, by decide⟩
  intro patch
  by_cases h : patch = ""
  · simp [parse_patch_line_numbers, computeValidLines, h]
  · simp [parse_patch_line_numbers, computeValidLines, h, parsePatchLoop_eq_fold]

/-- C5 counterexample: in the patch
`"@@ -5 +5 @@\n@@ -1 +1 @@\n+x"` the first hunk's new-start is 5, yet the
returned set contains the line number 1, which is smaller — so it is not
true for all patch strings that every returned line number is at least the
first hunk's new-start. -/
theorem claim_C5_counterexample :
    1 ∈ parse_patch_line_numbers "@@ -5 +5 @@\n@@ -1 +1 @@\n+x" ∧
    firstHunkStart "@@ -5 +5 @@\n@@ -1 +1 @@\n+x" = some 5 ∧
    ¬(5 ≤ 1) := by decide

/-- C5 amended: every line number returned by `parse_patch_line_numbers`
is at least the new-start of some hunk header of the patch (hence at least
the minimum new-start; this equals the first hunk's new-start whenever the
hunk new-starts are non-decreasing, as in a well-formed diff); and a patch
none of whose lines is an added or removed line yields the empty set,
hence contains no modified line. -/
theorem claim_C5_amended_lines_ge_some_hunk_start :
    ∀ patch : String,
      (∀ n ∈ parse_patch_line_numbers patch, ∃ s ∈ hunkStarts patch, s ≤ n) ∧
      ((∀ l ∈ patchLines patch, isPlusLine l = false ∧ isMinusLine l = false) →
        parse_patch_line_numbers patch = (∅ : Finset Nat)) := by
  intro patch
  constructor
  · intro n hn
    by_cases h : patch = ""
    · rw [h] at hn
      simp [parse_patch_line_numbers] at hn
    · rw [parse_patch_line_numbers, if_neg h] at hn
      rcases mem_parsePatchLoop (patchLines patch) 0 ∅ n hn with h1 | h2 | h3
      · simp at h1
      · exact absurd rfl h2.1
      · exact h3
  · intro hno
    by_cases h : patch = ""
    · simp [parse_patch_line_numbers, h]
    · rw [parse_patch_line_numbers, if_neg h]
      exact parsePatchLoop_no_modified (patchLines patch) 0 ∅ hno

/-- Witness for the amended C5: the line 3 returned for the patch
`"@@ -3 +3 @@\n+a"` is at least some hunk new-start, and the context-only
patch `"@@ -1 +1 @@\n ctx"` yields the empty set. -/
theorem claim_C5_witness :
    (∃ s ∈ hunkStarts "@@ -3 +3 @@\n+a", s ≤ 3) ∧
    parse_patch_line_numbers "@@ -1 +1 @@\n ctx" = (∅ : Finset Nat) :=
  ⟨(claim_C5_amended_lines_ge_some_hunk_start "@@ -3 +3 @@\n+a").1 3 (by decide),
   (claim_C5_amended_lines_ge_some_hunk_start "@@ -1 +1 @@\n ctx").2 (by decide)⟩

/-- C6: `filter_comments_by_valid_lines` is total and order-preserving —
the two outputs' lengths sum to the input length, the valid output is the
input filtered by the membership test and the invalid output is the input
filtered by its negation (so every input comment lands in exactly one
output, in input order), and the membership test holds exactly when the
comment's line field is an integer belonging to the valid-line set computed
for its path, the empty set when the path is absent from the mapping. -/
theorem claim_C6_partition_total_order_preserving :
    ∀ (comments : List CommentDict) (patches : List (String × String)),
      (filter_comments_by_valid_lines comments patches).1.length +
        (filter_comments_by_valid_lines comments patches).2.length =
          comments.length ∧
      (filter_comments_by_valid_lines comments patches).1 =
        comments.filter (is_valid_comment patches) ∧
      (filter_comments_by_valid_lines comments patches).2 =
        comments.filter (fun c => !(is_valid_comment patches c)) ∧
      (∀ c : CommentDict,
        is_valid_comment patches c = true ↔ commentLineIsValidSpec patches c) := by
  intro comments patches
  have hpart : filter_comments_by_valid_lines comments patches =
      (comments.filter (is_valid_comment patches),
       comments.filter (fun c => !(is_valid_comment patches c))) := by
    unfold filter_comments_by_valid_lines
    rw [List.partition_eq_filter_filter]
    rfl
  refine ⟨?_, ?_, ?_, fun c => is_valid_comment_iff patches c⟩ <;> rw [hpart]
  exact length_filter_add_length_filter_not comments _

/-- C7 counterexample: when the final message content contains no
brace-delimited span at all (`"the model replied with plain prose and no
structured output"`), `process_review_result` silently skips — it yields
zero comments but does **not** append the fixed parse-error marker to the
summaries, contradicting the claim that the summary falls back to the
marker whenever no JSON is present. -/
theorem claim_C7_counterexample :
    process_review_result loads0 stateNoJson =
      Except.ok ⟨[], [], 1, []⟩ ∧
    "**a.py**: Review completed (parse error)" ∉ ([] : List String) := by
  constructor
  · rfl
  · simp

/-- C7 amended: extraction recovers locally and never aborts the file or
the batch, but the two failure shapes differ — when the content holds a
brace-delimited span whose parse fails, the file contributes zero comments
and its summary entry is the fixed parse-error marker; when the content
holds no brace-delimited span, the file contributes zero comments and no
summary entry at all.  In both cases the update advances to the next
file. -/
theorem claim_C7_amended_extraction_fallback :
    ∀ (loads : String → Option (List (String × Json))) (files : List PRFile)
      (idx : Nat) (cs : List CommentDict) (ss : List String)
      (msgs : List Message) (content : String) (tcs : List String) (f : PRFile),
      files.get? idx = some f →
      msgs.getLast? = some (Message.ai content tcs) →
      ((∀ span, braceSpan content = some span → loads span = none →
          process_review_result loads ⟨files, idx, cs, ss, msgs⟩ =
            Except.ok ⟨cs,
              ss ++ ["**" ++ f.filename ++ "**: Review completed (parse error)"],
              idx + 1, []⟩) ∧
        (braceSpan content = none →
          process_review_result loads ⟨files, idx, cs, ss, msgs⟩ =
            Except.ok ⟨cs, ss, idx + 1, []⟩)) := by
  intro loads files idx cs ss msgs content tcs f hfile hlast
  constructor
  · intro span hspan hnone
    unfold process_review_result
    dsimp only
    rw [hlast, hfile]
    dsimp only
    rw [hspan]
    dsimp only
    rw [hnone]
  · intro hnospan
    unfold process_review_result
    dsimp only
    rw [hlast, hfile]
    dsimp only
    rw [hnospan]

/-- Witness for the amended C7: on a state whose last message holds the
unparseable span `"\x7bnot valid json\x7d"`, the update appends the fixed
parse-error marker; on a state whose last message holds no span, the update
leaves the summaries untouched.  Both updates advance the file index. -/
theorem claim_C7_witness :
    process_review_result loads0 stateBadJson =
      Except.ok ⟨[], ["**a.py**: Review completed (parse error)"], 1, []⟩ ∧
    process_review_result loads0
        ⟨files1, 0, [], [], [Message.ai "all clear, nothing to flag" []]⟩ =
      Except.ok ⟨[], [], 1, []⟩ :=
  ⟨(claim_C7_amended_extraction_fallback loads0 files1 0 [] []
      [Message.ai "prefix \x7bnot valid json\x7d suffix" []]
      "prefix \x7bnot valid json\x7d suffix" [] fileA rfl rfl).1
      "\x7bnot valid json\x7d" (by decide) rfl,
   (claim_C7_amended_extraction_fallback loads0 files1 0 [] []
      [Message.ai "all clear, nothing to flag" []]
      "all clear, nothing to flag" [] fileA rfl rfl).2 (by decide)⟩

/-- C8: for every orchestration run that reaches the submission step, the
returned outcome is identical whatever the external submission call would
return — the submission attempt is caught, and the run reports success
with the same file count, comment count and overall summary either way. -/
theorem claim_C8_submission_failure_isolated :
    ∀ (owner repo : String) (pr_number : Nat) (pr : PRInfo) (files : List PRFile)
      (max_files : Nat)
      (scheduler : List PRFile → String → String → Nat → List CommentDict × String)
      (post post' : Except PyExc Unit),
      reviewable_files files max_files ≠ [] →
      (review_pull_request owner repo pr_number pr files max_files scheduler post).outcome =
        (review_pull_request owner repo pr_number pr files max_files scheduler post').outcome ∧
      (review_pull_request owner repo pr_number pr files max_files scheduler post).outcome.success =
        true := by
  intro owner repo pr_number pr files max_files scheduler post post' h
  have hb : (reviewable_files files max_files).isEmpty = false :=
    eq_false_of_ne_true (fun hc => h (List.isEmpty_iff.mp hc))
  unfold review_pull_request
  simp only [hb, Bool.false_eq_true, if_false]
  refine ⟨?_, ?_⟩ <;> simp

/-- Witness for C8: on a concrete single-file run, a failing external
submission call and a succeeding one produce the same successful
outcome. -/
theorem claim_C8_witness :
    (review_pull_request "o" "r" 1 pr0 files1 50 sched0
        (Except.error (PyExc.other "github down"))).outcome =
      (review_pull_request "o" "r" 1 pr0 files1 50 sched0 (Except.ok ())).outcome ∧
    (review_pull_request "o" "r" 1 pr0 files1 50 sched0
        (Except.error (PyExc.other "github down"))).outcome.success = true :=
  claim_C8_submission_failure_isolated "o" "r" 1 pr0 files1 50 sched0
    (Except.error (PyExc.other "github down")) (Except.ok ()) (by decide)

/-- C9: for every orchestration run with at least one reviewable file, the
submission path raises `TypeError` regardless of what the external
`pr.create_review` call would return — `submit_review` passes five
positional arguments to the four-parameter `create_review`, so the binding
fails before any review reaches source control — and the orchestrator
still reports success. -/
theorem claim_C9_submission_always_type_error :
    ∀ (owner repo : String) (pr_number : Nat) (pr : PRInfo) (files : List PRFile)
      (max_files : Nat)
      (scheduler : List PRFile → String → String → Nat → List CommentDict × String)
      (post : Except PyExc Unit),
      reviewable_files files max_files ≠ [] →
      (review_pull_request owner repo pr_number pr files max_files scheduler post).submission =
        some (Except.error PyExc.typeError) ∧
      (review_pull_request owner repo pr_number pr files max_files scheduler post).outcome.success =
        true := by
  intro owner repo pr_number pr files max_files scheduler post h
  have hb : (reviewable_files files max_files).isEmpty = false :=
    eq_false_of_ne_true (fun hc => h (List.isEmpty_iff.mp hc))
  unfold review_pull_request
  simp only [hb, Bool.false_eq_true, if_false]
  refine ⟨?_, ?_⟩ <;>
    simp [submit_review, create_review_call, bindsPositional, create_review_param_count,
      create_review_required_count, submit_review_arg_count]

/-- Witness for C9: on a concrete single-file run whose external submission
call would succeed, the recorded submission result is still `TypeError` and
the outcome still reports success. -/
theorem claim_C9_witness :
    (review_pull_request "o" "r" 1 pr0 files1 50 sched2 (Except.ok ())).submission =
      some (Except.error PyExc.typeError) ∧
    (review_pull_request "o" "r" 1 pr0 files1 50 sched2 (Except.ok ())).outcome.success =
      true :=
  claim_C9_submission_always_type_error "o" "r" 1 pr0 files1 50 sched2
    (Except.ok ()) (by decide)

/-- C10: for every orchestration run that invokes the scheduler, the
outcome's comment count and the count sent to the chat notification both
equal the number of comments returned by the scheduler before diff-line
validation — which is the size of the valid and invalid partitions
together, not the size of the submitted valid subset. -/
theorem claim_C10_outcome_counts_prevalidation :
    ∀ (owner repo : String) (pr_number : Nat) (pr : PRInfo) (files : List PRFile)
      (max_files : Nat)
      (scheduler : List PRFile → String → String → Nat → List CommentDict × String)
      (post : Except PyExc Unit),
      reviewable_files files max_files ≠ [] →
      (review_pull_request owner repo pr_number pr files max_files scheduler post).outcome.comments =
        (scheduler (reviewable_files files max_files) pr.title pr.body
          orchestrator_max_concurrency).1.length ∧
      (review_pull_request owner repo pr_number pr files max_files scheduler post).notified_count =
        some (scheduler (reviewable_files files max_files) pr.title pr.body
          orchestrator_max_concurrency).1.length ∧
      (scheduler (reviewable_files files max_files) pr.title pr.body
          orchestrator_max_concurrency).1.length =
        (filter_comments_by_valid_lines
          (scheduler (reviewable_files files max_files) pr.title pr.body
            orchestrator_max_concurrency).1
          ((reviewable_files files max_files).map (fun f => (f.filename, f.patch)))).1.length +
        (filter_comments_by_valid_lines
          (scheduler (reviewable_files files max_files) pr.title pr.body
            orchestrator_max_concurrency).1
          ((reviewable_files files max_files).map (fun f => (f.filename, f.patch)))).2.length := by
  intro owner repo pr_number pr files max_files scheduler post h
  have hb : (reviewable_files files max_files).isEmpty = false :=
    eq_false_of_ne_true (fun hc => h (List.isEmpty_iff.mp hc))
  refine ⟨?_, ?_, ?_⟩
  · unfold review_pull_request
    simp only [hb, Bool.false_eq_true, if_false]
  · unfold review_pull_request
    simp only [hb, Bool.false_eq_true, if_false]
  · have hpart : filter_comments_by_valid_lines
        (scheduler (reviewable_files files max_files) pr.title pr.body
          orchestrator_max_concurrency).1
        ((reviewable_files files max_files).map (fun f => (f.filename, f.patch))) =
        ((scheduler (reviewable_files files max_files) pr.title pr.body
            orchestrator_max_concurrency).1.filter
          (is_valid_comment ((reviewable_files files max_files).map
            (fun f => (f.filename, f.patch)))),
         (scheduler (reviewable_files files max_files) pr.title pr.body
            orchestrator_max_concurrency).1.filter
          (fun c => !(is_valid_comment ((reviewable_files files max_files).map
            (fun f => (f.filename, f.patch))) c))) := by
      unfold filter_comments_by_valid_lines
      rw [List.partition_eq_filter_filter]
      rfl
    rw [hpart]
    exact (length_filter_add_length_filter_not _ _).symm

/-- Witness for C10: a concrete run where the scheduler yields two
comments, one valid and one invalid — the outcome and the notification
report 2 while only 1 comment survives validation. -/
theorem claim_C10_witness :
    (review_pull_request "o" "r" 2 pr0 files1 50 sched2 (Except.ok ())).outcome.comments =
      (sched2 (reviewable_files files1 50) pr0.title pr0.body
        orchestrator_max_concurrency).1.length ∧
    (sched2 (reviewable_files files1 50) pr0.title pr0.body
      orchestrator_max_concurrency).1.length = 2 ∧
    (filter_comments_by_valid_lines
      (sched2 (reviewable_files files1 50) pr0.title pr0.body
        orchestrator_max_concurrency).1
      ((reviewable_files files1 50).map (fun f => (f.filename, f.patch)))).1.length = 1 :=
  ⟨(claim_C10_outcome_counts_prevalidation "o" "r" 2 pr0 files1 50 sched2
      (Except.ok ()) (by decide)).1,
   by decide, by decide⟩

/-- C1: in every state reachable from the scheduler's initial state — all
files submitted at once, the admission gate holding `max_concurrency = 5`
permits, each task acquiring a permit around its whole agentic loop and
releasing it on completion or failure — at most 5 single-file review tasks
are in-flight simultaneously, whatever the number of files. -/
theorem claim_C1_admission_gate_bound :
    ∀ (numFiles : Nat) (s : SchedState),
      SchedReachable (schedInit orchestrator_max_concurrency numFiles) s →
      runningCount s.tasks ≤ orchestrator_max_concurrency := by
  intro numFiles s hreach
  have hinv := schedReachable_invariant hreach
  unfold schedInvariant at hinv
  omega

/-- Witness for C1: with 7 files, the state reached after the first task
acquires a permit has at most 5 tasks in flight. -/
theorem claim_C1_witness :
    runningCount (⟨(schedInit orchestrator_max_concurrency 7).tasks.set 0
        TaskStatus.running,
      (schedInit orchestrator_max_concurrency 7).permits - 1⟩ : SchedState).tasks ≤
      orchestrator_max_concurrency :=
  claim_C1_admission_gate_bound 7 _
    (SchedReachable.tail SchedReachable.refl
      (SchedStep.acquire (schedInit orchestrator_max_concurrency 7) 0
        (by decide) (by decide)))

/-- C2: every scheduler run completes with per-task failures isolated —
the aggregated comments are exactly the concatenation, in file-submission
order, of the successful tasks' comments; one summary line is aggregated
per successful task; and when no task succeeds the overall summary
short-circuits to the fixed no-files result.  In the specification's
example shape, 2 failures among 7 files leave exactly the 5 successful
tasks' results. -/
theorem claim_C2_failure_isolation_aggregation :
    ∀ (outcome : PRFile → Except PyExc FileReviewResult)
      (summarize : List String → String) (files : List PRFile),
      (review_files_parallel outcome summarize files).1 =
        ((files.filter (fun f => isOkOutcome (outcome f))).map
          (fun f => okComments (outcome f))).flatten ∧
      (successSummaries outcome files).length =
        (files.filter (fun f => isOkOutcome (outcome f))).length ∧
      ((files.filter (fun f => isOkOutcome (outcome f))).length = 0 →
        (review_files_parallel outcome summarize files).2 = "No files were reviewed.") := by
  intro outcome summarize files
  refine ⟨?_, successSummaries_length outcome files, ?_⟩
  · unfold review_files_parallel
    by_cases hs : (successSummaries outcome files).isEmpty = true
    · simp only [hs, if_true]
      exact flatten_okComments outcome files
    · simp only [hs, Bool.false_eq_true, if_false]
      · exact flatten_okComments outcome files
  · intro hlen
    have hnil : successSummaries outcome files = [] := by
      have := successSummaries_length outcome files
      rw [hlen] at this
      exact List.length_eq_zero.mp this
    unfold review_files_parallel
    rw [hnil]
    rfl

/-- Witness for C2: with the seven-file example where the tasks for
`c.py` and `f.py` raise, exactly 5 summary lines are aggregated; and a run
where every task fails yields the fixed no-files summary. -/
theorem claim_C2_witness :
    (successSummaries outcome7 files7).length =
      (files7.filter (fun f => isOkOutcome (outcome7 f))).length ∧
    (files7.filter (fun f => isOkOutcome (outcome7 f))).length = 5 ∧
    (review_files_parallel (fun _ => Except.error (PyExc.other "task raised"))
      summarize0 files7).2 = "No files were reviewed." :=
  ⟨(claim_C2_failure_isolation_aggregation outcome7 summarize0 files7).2.1,
   by decide,
   (claim_C2_failure_isolation_aggregation
      (fun _ => Except.error (PyExc.other "task raised")) summarize0 files7).2.2
      (by decide)⟩

/-- C3: the single-file agentic loop performs at most 5 model invocations;
and when the model requests tool calls on every response, it performs
exactly 5 and the file's result is still produced by running the last
response through extraction — the loop never runs unboundedly. -/
theorem claim_C3_iteration_cap :
    ∀ (loads : String → Option (List (String × Json)))
      (invoke : List Message → Message) (execTool : String → String)
      (f : PRFile) (title desc : String),
      (agentLoop invoke execTool (review_iteration_cap - 1)
        (initMessages f title desc)).1 ≤ review_iteration_cap ∧
      ((∀ h, hasToolCalls (invoke h) = true) →
        (agentLoop invoke execTool (review_iteration_cap - 1)
          (initMessages f title desc)).1 = review_iteration_cap ∧
        reviewFile loads invoke execTool f title desc =
          specExtract loads f.filename
            (contentOf (agentLoop invoke execTool (review_iteration_cap - 1)
              (initMessages f title desc)).2)) := by
  intro loads invoke execTool f title desc
  refine ⟨?_, fun htool => ⟨?_, rfl⟩⟩
  · exact agentLoop_invocations_le invoke execTool (review_iteration_cap - 1)
      (initMessages f title desc)
  · exact agentLoop_invocations_eq invoke execTool htool (review_iteration_cap - 1)
      (initMessages f title desc)

/-- Witness for C3: with a model stub that requests a tool call on every
response, the loop performs exactly 5 invocations and the file still gets a
result from extraction of the final response. -/
theorem claim_C3_witness :
    (agentLoop invoke1 exec1 (review_iteration_cap - 1)
      (initMessages fileA "title" "desc")).1 = review_iteration_cap ∧
    reviewFile loads0 invoke1 exec1 fileA "title" "desc" =
      specExtract loads0 fileA.filename
        (contentOf (agentLoop invoke1 exec1 (review_iteration_cap - 1)
          (initMessages fileA "title" "desc")).2) :=
  (claim_C3_iteration_cap loads0 invoke1 exec1 fileA "title" "desc").2
    (fun h => rfl)
